import Mathlib

/-!
Shallow embedding of the `P_fn` probability-function class from
`src/probability.py` (lines 152-248), together with the concrete
evaluators appearing in its test scenarios.

Modelling conventions:
* Python numbers are modelled as exact rationals (`ℚ`).
* A caller-supplied evaluator or condition is modelled as a total Lean
  function; where a claim hinges on Python raising inside caller code,
  a parallel `Except`-valued embedding over dynamically typed values
  (`PyObj PyAtom`) is used.
* `P_fn.__call__(*args)` is always used with a single argument in this
  repository, so it is modelled as a unary call.
* Python one-character strings are modelled as `Char` atoms.
-/

set_option autoImplicit false

/-- Dynamically typed Python values, as far as this code needs them:
atoms (of a type `β`, e.g. ints and one-character strings) and paired
tuples.  Only length-two tuples occur in the code and its tests. -/
inductive PyObj (β : Type) where
  | atom : β → PyObj β
  | tup : PyObj β → PyObj β → PyObj β
deriving DecidableEq

/-- `isinstance(x, tuple)` for a `PyObj`. -/
def PyObj.isTuple {β : Type} : PyObj β → Bool
  | .tup _ _ => true
  | .atom _ => false

/-- The `value` attribute of `P_fn`: `Union[Callable, float]`, i.e. either
a fixed scalar or a function from inputs to numbers. -/
inductive PValue (α : Type) where
  | const : ℚ → PValue α
  | fn : (α → ℚ) → PValue α

/-- Applying the raw caller-supplied evaluator to an input, ignoring any
condition: the scalar itself in the constant case, the function's result
in the callable case.  Used to state hypotheses about the caller's
evaluator as the spec phrases them. -/
def PValue.app {α : Type} : PValue α → α → ℚ
  | .const v, _ => v
  | .fn g, x => g x

/-- The caller-supplied evaluator returns values in `[0,1]` on the whole
domain. -/
def PValue.bounded01 {α : Type} (v : PValue α) : Prop :=
  ∀ y : α, 0 ≤ v.app y ∧ v.app y ≤ 1

/-- The `P_fn` class (src/probability.py line 152): a probability function
`value` together with an optional condition predicate. -/
structure P_fn (α : Type) where
  value : PValue α
  condition : Option (α → Bool)

/-- The guard `self.condition is None or self.condition(*args)` from
`P_fn.__call__` (line 178/180). -/
def condTrue {α : Type} : Option (α → Bool) → α → Bool
  | none, _ => true
  | some c, x => c x

/-- `P_fn.__call__` (lines 167-180): if `self.value` is callable, return
`self.value(*args)` when the condition passes and `0` otherwise; if it is
a scalar, return the scalar when the condition passes and `0` otherwise. -/
def P_fn.call {α : Type} (f : P_fn α) (x : α) : ℚ :=
  match f.value with
  | .fn g => if condTrue f.condition x then g x else 0
  | .const v => if condTrue f.condition x then v else 0

/-- Python `a and b` on an optional callable `a` and an optional callable
`b`: `None` is falsy, so `None and b` is `None`; a function object is
truthy, so `some_function and b` evaluates to `b` itself (no boolean
conjunction of the two predicates takes place). -/
def pyAndCond {α : Type} : Option (α → Bool) → Option (α → Bool) → Option (α → Bool)
  | none, _ => none
  | some _, b => b

/-- `P_fn.given` (lines 182-195): when `not replace and self.condition is
not None`, the new condition is `self.condition and condition` (Python
`and` of two objects, see `pyAndCond`); otherwise it is `condition`.  The
evaluator is kept unchanged in both branches. -/
def P_fn.given {α : Type} (f : P_fn α) (condition : Option (α → Bool)) (replace : Bool) : P_fn α :=
  if !replace && f.condition.isSome then
    { value := f.value, condition := pyAndCond f.condition condition }
  else
    { value := f.value, condition := condition }

/-- `P_fn.conditional` (lines 197-207): a new `P_fn` whose evaluator maps
`x` to `self(x) / other(x)` when `other(x) != 0` and to `0` otherwise,
carrying `self.condition` over to the new instance. -/
def P_fn.conditional {α : Type} (f other : P_fn α) : P_fn α :=
  { value := PValue.fn (fun x => if other.call x ≠ 0 then f.call x / other.call x else 0)
    condition := f.condition }

/-- `P_fn.independent` (lines 209-220): a new `P_fn` whose evaluator maps
`x` to `self(x) + other(x)`; no condition is passed, so it defaults to
`None`. -/
def P_fn.independent {α : Type} (f other : P_fn α) : P_fn α :=
  { value := PValue.fn (fun x => f.call x + other.call x)
    condition := none }

/-- Errors raised by the Python fragments modelled here. -/
inductive PyErr where
  | typeError
  | nameError
deriving DecidableEq

/-- `P_fn.mutually_exclusive` (lines 222-223): the body is
`return independent(self, other)`, where `independent` is a bare name.
No global `independent` exists in the module (`P_fn.independent` is only
a class attribute, which is not in scope inside a method body), so the
lookup fails at call time and Python raises `NameError` before any
`P_fn` is built. -/
def P_fn.mutually_exclusive {α : Type} (_f _other : P_fn α) : Except PyErr (P_fn α) :=
  Except.error PyErr.nameError

/-- `P_fn.dependent` (lines 225-236): a new `P_fn` whose evaluator checks
`isinstance(x, tuple)`; on a paired tuple it returns
`self(x[0]) * other(x[1])`, otherwise `self(x) * other(x)`.  No condition
is passed, so it defaults to `None`. -/
def P_fn.dependent {β : Type} (f other : P_fn (PyObj β)) : P_fn (PyObj β) :=
  { value := PValue.fn (fun x =>
      match x with
      | .tup a b => f.call a * other.call b
      | .atom _ => f.call x * other.call x)
    condition := none }

/-- Atoms occurring in the test scenarios of `src/probability.py`:
Python ints and one-character strings. -/
inductive PyAtom where
  | int : Int → PyAtom
  | chr : Char → PyAtom
deriving DecidableEq

/-- A dynamically typed Python value built from those atoms. -/
abbrev PyVal := PyObj PyAtom

/-- Python `<=` on the values the modelled code can reach: `int <= int`
compares numerically, `str <= str` compares lexicographically, and any
comparison mixing an int with a string or a tuple raises `TypeError`
(tuple-to-tuple comparison never occurs here: the die's comparisons
always have an int operand). -/
def pyLe : PyVal → PyVal → Except PyErr Bool
  | .atom (.int a), .atom (.int b) => Except.ok (decide (a ≤ b))
  | .atom (.chr a), .atom (.chr b) => Except.ok (decide (a ≤ b))
  | _, _ => Except.error PyErr.typeError

/-- Python's chained comparison `lo <= x <= hi`: evaluate `lo <= x`
first; if it is false the second comparison is skipped, otherwise
evaluate `x <= hi`.  Errors propagate. -/
def chainedLe (lo x hi : PyVal) : Except PyErr Bool := do
  let b ← pyLe lo x
  if b then pyLe x hi else pure false

/-- The fair-die evaluator `lambda x: 1/6 if 1 <= x <= 6 else 0`
(src/probability.py line 252), over dynamically typed input. -/
def p_dieEv (x : PyVal) : Except PyErr ℚ := do
  let b ← chainedLe (.atom (.int 1)) x (.atom (.int 6))
  pure (if b then 1/6 else 0)

/-- The fair-coin evaluator `lambda x: 1/2 if x in ['H', 'T'] else 0`
(line 261); membership tests by equality and never raises. -/
def p_coinEv (x : PyVal) : Except PyErr ℚ :=
  Except.ok (if x = .atom (.chr 'H') ∨ x = .atom (.chr 'T') then 1/2 else 0)

/-- The `value` attribute in the `Except`-valued embedding. -/
inductive PValueE where
  | const : ℚ → PValueE
  | fn : (PyVal → Except PyErr ℚ) → PValueE

/-- `P_fn` in the `Except`-valued embedding, for scenarios where a
caller-supplied evaluator can raise. -/
structure P_fnE where
  value : PValueE
  condition : Option (PyVal → Except PyErr Bool)

/-- The condition guard of `__call__`, with error propagation. -/
def condTrueE : Option (PyVal → Except PyErr Bool) → PyVal → Except PyErr Bool
  | none, _ => Except.ok true
  | some c, x => c x

/-- `P_fn.__call__` in the `Except`-valued embedding: the condition is
evaluated first (Python's conditional expression), then the evaluator;
errors propagate. -/
def P_fnE.call (f : P_fnE) (x : PyVal) : Except PyErr ℚ :=
  match f.value with
  | .fn g => do
      let ok ← condTrueE f.condition x
      if ok then g x else pure 0
  | .const v => do
      let ok ← condTrueE f.condition x
      if ok then pure v else pure 0

/-- `P_fn.independent` in the `Except`-valued embedding: the new
evaluator computes `self(x) + other(x)`, evaluating `self(x)` first; no
condition is set. -/
def P_fnE.independent (f other : P_fnE) : P_fnE :=
  { value := PValueE.fn (fun x => do
      let a ← f.call x
      let b ← other.call x
      pure (a + b))
    condition := none }

/-- `p_die = P_fn(lambda x: 1/6 if 1 <= x <= 6 else 0)` (line 252). -/
def p_die : P_fnE := { value := PValueE.fn p_dieEv, condition := none }

/-- `p_coin = P_fn(lambda x: 1/2 if x in ['H', 'T'] else 0)` (line 261). -/
def p_coin : P_fnE := { value := PValueE.fn p_coinEv, condition := none }

/-- The die evaluator over plain integers, for scenarios that stay
inside well-typed input: `1/6` on `1..6`, else `0` (line 252). -/
def dieFn (n : Int) : ℚ := if 1 ≤ n ∧ n ≤ 6 then 1/6 else 0

/-- `p_A = P_fn(lambda x: 1/2 if x in ['A', 'B'] else 0)` (line 268). -/
def pAfn (c : Char) : ℚ := if c = 'A' ∨ c = 'B' then 1/2 else 0

/-- `p_B = P_fn(lambda x: 1/2 if x in ['B', 'C'] else 0)` (line 269). -/
def pBfn (c : Char) : ℚ := if c = 'B' ∨ c = 'C' then 1/2 else 0

/-! ## Helper lemmas -/

theorem P_fn.call_eq_zero_of_cond_false {α : Type} (f : P_fn α) (x : α)
    (h : condTrue f.condition x = false) : f.call x = 0 := by
  unfold P_fn.call
  cases hv : f.value <;> simp [h]

theorem P_fn.call_mem01 {α : Type} (f : P_fn α) (x : α)
    (hf : f.value.bounded01) : 0 ≤ f.call x ∧ f.call x ≤ 1 := by
  have h := hf x
  unfold P_fn.call
  cases hv : f.value with
  | const v =>
      have : PValue.app f.value x = v := by rw [hv]; rfl
      rw [this] at h
      by_cases hc : condTrue f.condition x <;> simp [hc, h.1, h.2]
  | fn g =>
      have : PValue.app f.value x = g x := by rw [hv]; rfl
      rw [this] at h
      by_cases hc : condTrue f.condition x <;> simp [hc, h.1, h.2]

/-! ## Claims -/

/-- Claim C1: for every `P_fn` and input `x`, if a condition is present and
false at `x` the call returns exactly `0` — independently of the evaluator,
which expresses that the evaluator is not invoked — and otherwise the call
returns the function's result `g x` when the evaluator is callable, and the
constant itself when the evaluator is a fixed scalar. -/
theorem C1_call_semantics {α : Type} (v : PValue α) (c : α → Bool)
    (co : Option (α → Bool)) (x : α) (g : α → ℚ) (k : ℚ) :
    (c x = false →
      (P_fn.mk v (some c)).call x = 0 ∧
      ∀ v2 : PValue α, (P_fn.mk v2 (some c)).call x = 0) ∧
    (condTrue co x = true →
      (P_fn.mk (PValue.fn g) co).call x = g x ∧
      (P_fn.mk (PValue.const k) co).call x = k) := by
  constructor
  · intro hc
    refine ⟨?_, fun v2 => ?_⟩ <;>
      [exact P_fn.call_eq_zero_of_cond_false _ x hc;
       exact P_fn.call_eq_zero_of_cond_false _ x hc]
  · intro hco
    constructor <;> simp [P_fn.call, hco]

/-- Witness for C1: the die of the test suite, conditioned on evenness,
returns `0` at the odd roll `3`; unconditioned, it returns `dieFn 3`. -/
theorem C1_call_semantics_witness :
    (P_fn.mk (PValue.fn dieFn) (some (fun n : Int => decide (n % 2 = 0)))).call 3 = 0 ∧
    (P_fn.mk (PValue.fn dieFn) none).call 3 = dieFn 3 := by
  have h := C1_call_semantics (PValue.fn dieFn) (fun n : Int => decide (n % 2 = 0))
    (none : Option (Int → Bool)) 3 dieFn 0
  exact ⟨(h.1 (by decide)).1, (h.2 rfl).1⟩

theorem P_fn.conditional_call {α : Type} (f g : P_fn α) (x : α) :
    (f.conditional g).call x =
      if condTrue f.condition x then
        (if g.call x ≠ 0 then f.call x / g.call x else 0)
      else 0 := rfl

/-- Claim C2: `f.conditional(g)` evaluates at `x` to `f(x)/g(x)` when
`g(x) ≠ 0` and to `0` when `g(x) = 0`, and the returned `P_fn` carries
`f`'s condition unchanged. -/
theorem C2_conditional {α : Type} (f g : P_fn α) (x : α) :
    (g.call x ≠ 0 → (f.conditional g).call x = f.call x / g.call x) ∧
    (g.call x = 0 → (f.conditional g).call x = 0) ∧
    (f.conditional g).condition = f.condition := by
  refine ⟨?_, ?_, rfl⟩
  · intro hg
    rw [P_fn.conditional_call]
    cases hc : condTrue f.condition x with
    | true => rw [if_pos rfl, if_pos hg]
    | false =>
        rw [if_neg (by simp)]
        rw [P_fn.call_eq_zero_of_cond_false f x hc, zero_div]
  · intro hg
    rw [P_fn.conditional_call]
    have : ¬ g.call x ≠ 0 := fun h => h hg
    rw [if_neg this]
    exact ite_self 0

/-- Witness for C2: the `p_A`/`p_B` scenario of the test suite:
`p_A.conditional(p_B)` is `1` at `'B'` and `0` at `'A'`. -/
theorem C2_conditional_witness :
    ((P_fn.mk (PValue.fn pAfn) none).conditional (P_fn.mk (PValue.fn pBfn) none)).call 'B' = 1 ∧
    ((P_fn.mk (PValue.fn pAfn) none).conditional (P_fn.mk (PValue.fn pBfn) none)).call 'A' = 0 := by
  have hB := C2_conditional (P_fn.mk (PValue.fn pAfn) none) (P_fn.mk (PValue.fn pBfn) none) 'B'
  have hA := C2_conditional (P_fn.mk (PValue.fn pAfn) none) (P_fn.mk (PValue.fn pBfn) none) 'A'
  have hcallA : (P_fn.mk (PValue.fn pAfn) none).call 'B' = 1/2 := by
    show pAfn 'B' = 1/2
    rw [pAfn, if_pos (Or.inr rfl)]
  have hcallB : (P_fn.mk (PValue.fn pBfn) none).call 'B' = 1/2 := by
    show pBfn 'B' = 1/2
    rw [pBfn, if_pos (Or.inl rfl)]
  have hB0 : (P_fn.mk (PValue.fn pBfn) none).call 'A' = 0 := by
    show pBfn 'A' = 0
    rw [pBfn, if_neg (by decide)]
  constructor
  · rw [hB.1 (by rw [hcallB]; norm_num), hcallA, hcallB]
    norm_num
  · exact hA.2.1 hB0

/-- Claim C3: `f.independent(g)` evaluates at every `x` to the plain sum
`f(x) + g(x)`; no `P(A)+P(B)-P(A∩B)` correction and no clamping occur. -/
theorem C3_independent_sum {α : Type} (f g : P_fn α) (x : α) :
    (f.independent g).call x = f.call x + g.call x := rfl

theorem P_fn.independent_call {α : Type} (f g : P_fn α) (x : α) :
    (f.independent g).call x = f.call x + g.call x := rfl

theorem P_fn.dependent_call {β : Type} (f g : P_fn (PyObj β)) (x : PyObj β) :
    (f.dependent g).call x =
      match x with
      | .tup a b => f.call a * g.call b
      | .atom _ => f.call x * g.call x := rfl

/-- Claim C4 (counterexample): evaluating `p_die.independent(p_coin)` at the
paired input `(3, 'H')` does not yield `1/6 + 1/2`: the combined evaluator
applies the die function to the whole pair and Python's `1 <= (3, 'H')`
raises `TypeError`. -/
theorem C4_counterexample :
    (p_die.independent p_coin).call (PyObj.tup (.atom (.int 3)) (.atom (.chr 'H')))
      ≠ Except.ok ((1:ℚ)/6 + 1/2) := by
  show Except.error PyErr.typeError ≠ Except.ok ((1:ℚ)/6 + 1/2)
  exact fun h => Except.noConfusion h

/-- Claim C4 (amended): evaluating `p_die.independent(p_coin)` at the paired
input `(3, 'H')` raises `TypeError`, because the summed evaluator feeds the
entire pair to each operand and the die's comparison `1 <= x` is undefined
between an int and a tuple. -/
theorem C4_independent_die_coin_raises :
    (p_die.independent p_coin).call (PyObj.tup (.atom (.int 3)) (.atom (.chr 'H')))
      = Except.error PyErr.typeError := rfl

/-- Claim C5 (code bug): `mutually_exclusive` never returns a probability
function at all — its body evaluates the undefined bare name `independent`
and raises `NameError`, here for the concrete operands `P_fn(1/2)` and
`P_fn(1/3)`. -/
theorem C5_mutually_exclusive_raises :
    (P_fn.mk (PValue.const (1/2:ℚ)) (none : Option (Int → Bool))).mutually_exclusive
      (P_fn.mk (PValue.const (1/3:ℚ)) none) = Except.error PyErr.nameError := rfl

/-- Claim C6 (code bug): with `replace=False` and a prior condition present,
`given` does not conjoin the two conditions: Python's `and` of two truthy
callables yields the second, so the new condition is exactly the new
predicate.  With the prior condition `is_even` on `P_fn(1/2)` and a new
always-true condition, the call at the odd input `3` returns `1/2`, although
the conjoined condition demanded `0` (evenness of `3` is false). -/
theorem C6_given_discards_old_condition :
    ((P_fn.mk (PValue.const (1/2:ℚ)) (some (fun n : Int => decide (n % 2 = 0)))).given
        (some (fun _ : Int => true)) false).condition = some (fun _ : Int => true)
    ∧ ((P_fn.mk (PValue.const (1/2:ℚ)) (some (fun n : Int => decide (n % 2 = 0)))).given
        (some (fun _ : Int => true)) false).call 3 = 1/2
    ∧ decide ((3:Int) % 2 = 0) = false := by
  exact ⟨rfl, rfl, rfl⟩

/-- Claim C7 (code bug): the degenerate cases are indeed resolved by
branching — a zero denominator in `conditional` yields `0`, a non-tuple
input to `dependent` yields the symmetric product — but the operation
`mutually_exclusive` listed by the claim raises `NameError` on any call,
so the component is not raise-free. -/
theorem C7_error_policy :
    ((P_fn.mk (PValue.const (1/2:ℚ)) (none : Option (Int → Bool))).conditional
        (P_fn.mk (PValue.const 0) none)).call 7 = 0
    ∧ ((P_fn.mk (PValue.const (1/2:ℚ)) (none : Option (PyObj Int → Bool))).dependent
        (P_fn.mk (PValue.const (1/4:ℚ)) none)).call (PyObj.atom 9) = 1/2 * (1/4)
    ∧ (P_fn.mk (PValue.fn (fun _ : Int => (1/2:ℚ))) none).mutually_exclusive
        (P_fn.mk (PValue.const (1/4:ℚ)) none) = Except.error PyErr.nameError := by
  refine ⟨?_, rfl, rfl⟩
  rw [P_fn.conditional_call]
  have h0 : (P_fn.mk (PValue.const (0:ℚ)) (none : Option (Int → Bool))).call 7 = 0 := rfl
  rw [h0]
  simp [condTrue]

/-- Claim C8: `f.dependent(g)` evaluates a paired tuple `(x, y)` to
`f(x) * g(y)` and a non-tuple input `z` to `f(z) * g(z)`. -/
theorem C8_dependent_product {β : Type} (f g : P_fn (PyObj β)) (x y z : PyObj β)
    (hz : z.isTuple = false) :
    (f.dependent g).call (PyObj.tup x y) = f.call x * g.call y ∧
    (f.dependent g).call z = f.call z * g.call z := by
  refine ⟨rfl, ?_⟩
  cases z with
  | atom b => rfl
  | tup a b => simp [PyObj.isTuple] at hz

/-- Witness for C8: two constant probability functions combined with
`dependent`, evaluated at the pair `(3, 7)` and at the atom `5`. -/
theorem C8_dependent_product_witness :
    ((P_fn.mk (PValue.const (1/2:ℚ)) (none : Option (PyObj Int → Bool))).dependent
        (P_fn.mk (PValue.const (1/3:ℚ)) none)).call (PyObj.tup (PyObj.atom 3) (PyObj.atom 7))
      = (P_fn.mk (PValue.const (1/2:ℚ)) (none : Option (PyObj Int → Bool))).call (PyObj.atom 3)
        * (P_fn.mk (PValue.const (1/3:ℚ)) (none : Option (PyObj Int → Bool))).call (PyObj.atom 7)
    ∧ ((P_fn.mk (PValue.const (1/2:ℚ)) (none : Option (PyObj Int → Bool))).dependent
        (P_fn.mk (PValue.const (1/3:ℚ)) none)).call (PyObj.atom 5)
      = (P_fn.mk (PValue.const (1/2:ℚ)) (none : Option (PyObj Int → Bool))).call (PyObj.atom 5)
        * (P_fn.mk (PValue.const (1/3:ℚ)) (none : Option (PyObj Int → Bool))).call (PyObj.atom 5) :=
  C8_dependent_product _ _ (PyObj.atom 3) (PyObj.atom 7) (PyObj.atom 5) rfl

/-- Claim C9 (counterexample): two constant evaluators equal to `1` are
bounded by `[0,1]`, yet their `independent` combination evaluates to `2`,
which exceeds `1` — the claimed `[0,1]` invariant of composed functions
fails. -/
theorem C9_counterexample :
    PValue.bounded01 (PValue.const (1:ℚ) : PValue Int)
    ∧ ((P_fn.mk (PValue.const (1:ℚ)) none).independent
        (P_fn.mk (PValue.const (1:ℚ)) (none : Option (Int → Bool)))).call 0 = 2
    ∧ ¬ ((P_fn.mk (PValue.const (1:ℚ)) none).independent
        (P_fn.mk (PValue.const (1:ℚ)) (none : Option (Int → Bool)))).call 0 ≤ 1 := by
  refine ⟨fun y => ⟨zero_le_one, le_refl 1⟩, ?_, ?_⟩
  · show (1:ℚ) + 1 = 2
    norm_num
  · show ¬ (1:ℚ) + 1 ≤ 1
    norm_num

/-- Claim C9 (amended): when the caller-supplied evaluators take values in
`[0,1]` domain-wide, a composed function evaluates within `[0,1]` for
`given` and `dependent`, within `[0,2]` (possibly above `1`) for
`independent`, and to a nonnegative (but not `1`-bounded) value for
`conditional`; no clamping is performed. -/
theorem C9_composed_bounds {β : Type} (f g : P_fn (PyObj β)) (x : PyObj β)
    (c : Option (PyObj β → Bool)) (r : Bool)
    (hf : f.value.bounded01) (hg : g.value.bounded01) :
    (0 ≤ (f.independent g).call x ∧ (f.independent g).call x ≤ 2)
    ∧ (0 ≤ (f.dependent g).call x ∧ (f.dependent g).call x ≤ 1)
    ∧ 0 ≤ (f.conditional g).call x
    ∧ (0 ≤ (f.given c r).call x ∧ (f.given c r).call x ≤ 1) := by
  have hfc := fun y => P_fn.call_mem01 f y hf
  have hgc := fun y => P_fn.call_mem01 g y hg
  refine ⟨⟨?_, ?_⟩, ⟨?_, ?_⟩, ?_, ?_⟩
  · rw [P_fn.independent_call]
    exact add_nonneg (hfc x).1 (hgc x).1
  · rw [P_fn.independent_call]
    exact le_trans (add_le_add (hfc x).2 (hgc x).2) (by norm_num)
  · rw [P_fn.dependent_call]
    cases x with
    | atom b => exact mul_nonneg (hfc _).1 (hgc _).1
    | tup a b => exact mul_nonneg (hfc a).1 (hgc b).1
  · rw [P_fn.dependent_call]
    cases x with
    | atom b => exact mul_le_one₀ (hfc _).2 (hgc _).1 (hgc _).2
    | tup a b => exact mul_le_one₀ (hfc a).2 (hgc b).1 (hgc b).2
  · rw [P_fn.conditional_call]
    cases hcd : condTrue f.condition x with
    | false => rw [if_neg (by simp)]
    | true =>
        rw [if_pos rfl]
        by_cases hg0 : g.call x ≠ 0
        · rw [if_pos hg0]
          exact div_nonneg (hfc x).1 (hgc x).1
        · rw [if_neg hg0]
  · have hv : (f.given c r).value.bounded01 := by
      have hval : (f.given c r).value = f.value := by
        unfold P_fn.given
        split <;> rfl
      rw [hval]
      exact hf
    exact P_fn.call_mem01 (f.given c r) x hv

/-- Witness for C9 (amended): two constant evaluators `1/2` and `1/3` are
`[0,1]`-bounded and their `independent` combination at an atom lies in
`[0,2]`. -/
theorem C9_composed_bounds_witness :
    0 ≤ ((P_fn.mk (PValue.const (1/2:ℚ)) none).independent
        (P_fn.mk (PValue.const (1/3:ℚ)) (none : Option (PyObj Int → Bool)))).call (PyObj.atom 0)
    ∧ ((P_fn.mk (PValue.const (1/2:ℚ)) none).independent
        (P_fn.mk (PValue.const (1/3:ℚ)) (none : Option (PyObj Int → Bool)))).call (PyObj.atom 0) ≤ 2 := by
  have h := C9_composed_bounds (P_fn.mk (PValue.const (1/2:ℚ)) none)
    (P_fn.mk (PValue.const (1/3:ℚ)) (none : Option (PyObj Int → Bool))) (PyObj.atom 0) none true
    (fun y => by constructor <;> norm_num [PValue.app])
    (fun y => by constructor <;> norm_num [PValue.app])
  exact h.1

/-- Claim C10: the probability functions built by `independent` and
`dependent` carry no condition of their own — the `condition` attribute of
the result is `None` for all operands, including conditioned ones. -/
theorem C10_combinators_drop_condition {α β : Type} (f g : P_fn α)
    (f2 g2 : P_fn (PyObj β)) :
    (f.independent g).condition = none ∧ (f2.dependent g2).condition = none :=
  ⟨rfl, rfl⟩
